import Mathlib

/-!
Verification of `src/volttron/client/commands/install_parser.py`
(riley206-pnnl/volttron-core): the `vctl install` / `vctl install-lib`
command implementation.

The development shallowly embeds the module's functions:

* `_classify_install_source`  (including the behaviour of CPython's
  `urllib.parse.urlparse` scheme extraction and its `Invalid IPv6 URL`
  `ValueError`, and `pathlib.PurePosixPath` string normalisation);
* `_build_from_pyproject`;
* `_install_and_initialize_agent` (request construction and the RPC
  dispatch / reporting part);
* `_install_lib`, `install_lib_vctl`, `install_agent_vctl`.

The filesystem, the connection and the external build tool are modelled as
abstract parameters (`Fs`, `Conn`): the code only observes them through the
operations recorded in those structures.

The YAML configuration serialisation (`yaml.safe_dump` / `yaml.safe_load`)
is a third-party dependency that is not part of this repository; it is
modelled from the spec as an executable human-readable codec over the
JSON-like value domain (`Yaml` below), see `ydump` / `yload`.
-/

namespace InstallParser

/-- The JSON-like data domain of a parsed agent configuration: what the
spec calls a "structured mapping" (nulls, booleans, integers, strings,
sequences and string-keyed mappings). -/
inductive Yaml where
  | null : Yaml
  | bool (b : Bool) : Yaml
  | int (n : Int) : Yaml
  | str (s : String) : Yaml
  | list (xs : List Yaml) : Yaml
  | map (kvs : List (String × Yaml)) : Yaml

/-- Decimal digit to its character. -/
def digitToChar (d : Nat) : Char :=
  match d with
  | 0 => '0' | 1 => '1' | 2 => '2' | 3 => '3' | 4 => '4'
  | 5 => '5' | 6 => '6' | 7 => '7' | 8 => '8' | _ => '9'

/-- Character to decimal digit value. -/
def charToDigit (c : Char) : Nat := c.toNat - 48

/-- Little-endian decimal digits of a positive number, with fuel. -/
def natToRevDigits : Nat → Nat → List Nat
  | 0, _ => []
  | fuel + 1, n => if n = 0 then [] else n % 10 :: natToRevDigits fuel (n / 10)

/-- Decimal rendering of a natural number (Python `str(n)` for `n ≥ 0`). -/
def emitNat (n : Nat) : List Char :=
  if n = 0 then ['0'] else ((natToRevDigits n n).reverse.map digitToChar)

/-- Decimal rendering of an integer (Python `str(n)`). -/
def emitInt (n : Int) : List Char :=
  if n < 0 then '-' :: emitNat (-n).toNat else emitNat n.toNat

/-- Value of a little-endian decimal digit list. -/
def ofDigitsLE : List Nat → Nat
  | [] => 0
  | d :: t => d + 10 * ofDigitsLE t

/-- Escape a raw character sequence for a double-quoted scalar. -/
def escapeChars : List Char → List Char
  | [] => []
  | c :: t => if c = '"' || c = '\\' then '\\' :: c :: escapeChars t else c :: escapeChars t

mutual

/-- Modelled from the spec: serialisation of one configuration value in the
human-readable config format (the source uses `yaml.safe_dump`, an external
dependency; the spec only requires a round-trippable human-readable
serialisation, which this flow-style rendering is). -/
def emitVal : Yaml → List Char
  | .null => "null".data
  | .bool true => "true".data
  | .bool false => "false".data
  | .int n => emitInt n
  | .str s => '"' :: (escapeChars s.data ++ ['"'])
  | .list [] => ['[', ']']
  | .list (x :: xs) => '[' :: (emitVal x ++ emitItems xs)
  | .map [] => ['\x7b', '\x7d']
  | .map ((k, v) :: ps) =>
      '\x7b' :: '"' :: (escapeChars k.data ++ ['"', ':'] ++ emitVal v ++ emitPairs ps)

/-- Remaining sequence items, each preceded by a separator, then the closer. -/
def emitItems : List Yaml → List Char
  | [] => [']']
  | x :: xs => ',' :: (emitVal x ++ emitItems xs)

/-- Remaining mapping entries, each preceded by a separator, then the closer. -/
def emitPairs : List (String × Yaml) → List Char
  | [] => ['\x7d']
  | (k, v) :: ps => ',' :: '"' :: (escapeChars k.data ++ ['"', ':'] ++ emitVal v ++ emitPairs ps)

end

/-- Body of a double-quoted scalar: unescape until the closing quote. -/
def parseStrBody : List Char → Option (List Char × List Char)
  | [] => none
  | c :: rest =>
    if c = '"' then some ([], rest)
    else if c = '\\' then
      match rest with
      | [] => none
      | c2 :: rest2 => (parseStrBody rest2).map (fun p => (c2 :: p.1, p.2))
    else (parseStrBody rest).map (fun p => (c :: p.1, p.2))

/-- Parse a nonempty run of decimal digits. -/
def parseNat (cs : List Char) : Option (Nat × List Char) :=
  let ds := cs.takeWhile Char.isDigit
  if ds = [] then none
  else some (ofDigitsLE ((ds.map charToDigit).reverse), cs.dropWhile Char.isDigit)

mutual

/-- Modelled from the spec: parsing one value of the human-readable config
format back into the structured domain (the source uses `yaml.safe_load`). -/
def parseVal : Nat → List Char → Option (Yaml × List Char)
  | 0, _ => none
  | fuel + 1, cs =>
    match cs with
    | [] => none
    | c :: rest =>
      if c = '"' then (parseStrBody rest).map (fun p => (.str (String.mk p.1), p.2))
      else if c = '-' then (parseNat rest).map (fun p => (.int (-(p.1 : Int)), p.2))
      else if c.isDigit then (parseNat cs).map (fun p => (.int (p.1 : Int), p.2))
      else if c = '[' then
        match rest with
        | ']' :: r => some (.list [], r)
        | _ => (parseItems fuel rest).map (fun p => (.list p.1, p.2))
      else if c = '\x7b' then
        match rest with
        | '\x7d' :: r => some (.map [], r)
        | _ => (parsePairs fuel rest).map (fun p => (.map p.1, p.2))
      else if cs.take 4 = ['n', 'u', 'l', 'l'] then some (.null, cs.drop 4)
      else if cs.take 4 = ['t', 'r', 'u', 'e'] then some (.bool true, cs.drop 4)
      else if cs.take 5 = ['f', 'a', 'l', 's', 'e'] then some (.bool false, cs.drop 5)
      else none

/-- One or more sequence items separated by `,`, ended by `]`. -/
def parseItems : Nat → List Char → Option (List Yaml × List Char)
  | 0, _ => none
  | fuel + 1, cs =>
    match parseVal fuel cs with
    | none => none
    | some (v, rest) =>
      match rest with
      | ',' :: r => (parseItems fuel r).map (fun p => (v :: p.1, p.2))
      | ']' :: r => some ([v], r)
      | _ => none

/-- One or more mapping entries separated by `,`, ended by the closer. -/
def parsePairs : Nat → List Char → Option (List (String × Yaml) × List Char)
  | 0, _ => none
  | fuel + 1, cs =>
    match cs with
    | '"' :: cs' =>
      match parseStrBody cs' with
      | none => none
      | some (k, rest) =>
        match rest with
        | ':' :: rest' =>
          match parseVal fuel rest' with
          | none => none
          | some (v, rest'') =>
            match rest'' with
            | ',' :: r3 => (parsePairs fuel r3).map (fun p => ((String.mk k, v) :: p.1, p.2))
            | '\x7d' :: r3 => some ([(String.mk k, v)], r3)
            | _ => none
        | _ => none
    | _ => none

end

/-- Model of `yaml.safe_dump`: render a configuration value to file content. -/
def ydump (y : Yaml) : String := String.mk (emitVal y)

/-- Model of `yaml.safe_load`: parse file content into a configuration value,
`none` when the content is not valid (the source wraps the corresponding
exception in `InstallRuntimeError`). -/
def yload (s : String) : Option Yaml :=
  match parseVal (2 * s.data.length + 2) s.data with
  | some (v, []) => some v
  | _ => none

mutual

/-- Fuel needed by `parseVal` to parse the rendering of a value. -/
def sizeV : Yaml → Nat
  | .null => 1
  | .bool _ => 1
  | .int _ => 1
  | .str _ => 1
  | .list xs => 1 + sizeL xs
  | .map ps => 1 + sizeP ps

/-- Fuel needed for the items of a sequence. -/
def sizeL : List Yaml → Nat
  | [] => 1
  | x :: xs => 1 + sizeV x + sizeL xs

/-- Fuel needed for the entries of a mapping. -/
def sizeP : List (String × Yaml) → Nat
  | [] => 1
  | (_, v) :: ps => 1 + sizeV v + sizeP ps

end

/-! ## CPython `urllib.parse.urlparse`: scheme extraction and its errors

Modelled from CPython's `urlsplit` (3.9-3.11 line: WHATWG lstrip of C0
controls and space, removal of tab / CR / LF, scheme split requiring a
leading ASCII letter, lowercasing, and the mismatched-bracket
`ValueError("Invalid IPv6 URL")` raised while splitting the netloc).
The additional 3.11+ validation of a *matched* bracketed host is not
modelled; the theorems below only rely on inputs where every CPython
version in the repository's support range behaves identically. -/

/-- The `_WHATWG_C0_CONTROL_OR_SPACE` character class. -/
def isC0OrSpace (c : Char) : Bool := c.toNat ≤ 32

/-- Characters allowed in a URI scheme (`scheme_chars`). -/
def isSchemeChar (c : Char) : Bool :=
  c.isAlpha || c.isDigit || c = '+' || c = '-' || c = '.'

/-- Model of `url.lstrip(_WHATWG_C0_CONTROL_OR_SPACE)` followed by removal of
`'\t'`, `'\r'`, `'\n'` (`_UNSAFE_URL_BYTES_TO_REMOVE`). -/
def sanitizeUrl (cs : List Char) : List Char :=
  (cs.dropWhile isC0OrSpace).filter (fun c => !(c = '\t' || c = '\r' || c = '\n'))

/-- Scheme split of `urlsplit`: lowercased scheme (or `""`) and the rest. -/
def splitScheme (url : List Char) : List Char × List Char :=
  match url.findIdx? (· = ':') with
  | some i =>
    if h : 0 < i ∧ (url.headD ' ').isAlpha
        ∧ (url.take i).all isSchemeChar then
      ((url.take i).map Char.toLower, url.drop (i + 1))
    else ([], url)
  | none => ([], url)

/-- Model of `_splitnetloc`: the authority component, up to `/`, `?` or `#`. -/
def splitNetloc (rest : List Char) : List Char :=
  rest.takeWhile (fun c => !(c = '/' || c = '?' || c = '#'))

/-- Errors the install command can raise. -/
inductive Err where
  | assertion (msg : String)
  | installRuntime (msg : String)
  | valueError (msg : String)
deriving Repr, DecidableEq

/-- Model of `urlparse(source).scheme`, or the `ValueError` that `urlsplit` raises for
an authority with mismatched square brackets. -/
def urlparseScheme (source : String) : Except Err String :=
  let url := sanitizeUrl source.data
  let sr := splitScheme url
  if sr.2.take 2 = ['/', '/'] then
    let netloc := splitNetloc (sr.2.drop 2)
    if (netloc.contains '[' != netloc.contains ']') then
      .error (.valueError "Invalid IPv6 URL")
    else .ok (String.mk sr.1)
  else .ok (String.mk sr.1)

/-! ## `pathlib.PurePosixPath` string normalisation -/

/-- Kernel-reducible `str.startswith`. -/
def hasPrefixL : List Char → List Char → Bool
  | [], _ => true
  | _ :: _, [] => false
  | p :: pt, c :: ct => p = c && hasPrefixL pt ct

/-- Model of `s.startswith(p)`. -/
def strStartsWith (s p : String) : Bool := hasPrefixL p.data s.data

/-- Model of `s.endswith(p)`. -/
def strEndsWith (s p : String) : Bool := hasPrefixL p.data.reverse s.data.reverse

/-- Model of `s.split("/")`. -/
def splitSlash (cs : List Char) : List (List Char) :=
  cs.foldr (fun c acc =>
    if c = '/' then [] :: acc else (c :: acc.headD []) :: acc.tail) [[]]

/-- Join path components with `/`. -/
def joinSlash : List String → String
  | [] => ""
  | [x] => x
  | x :: xs => x ++ "/" ++ joinSlash xs

/-- Root prefix of a POSIX path string (`'//'` is preserved, three or more
slashes collapse to `'/'`). -/
def posixRoot (s : String) : String :=
  if strStartsWith s "//" && !(strStartsWith s "///") then "//"
  else if strStartsWith s "/" then "/" else ""

/-- Non-trivial path components (empty and `.` components are dropped). -/
def posixParts (s : String) : List String :=
  ((splitSlash s.data).filter (fun c => c ≠ [] && c ≠ ['.'])).map String.mk

/-- Model of `str(PurePosixPath(s))`: the normalised form the source obtains by
wrapping a string in `Path(...)` (the empty string becomes `.`). -/
def pathOf (s : String) : String :=
  let root := posixRoot s
  let parts := posixParts s
  if root = "" && parts = [] then "."
  else root ++ joinSlash parts

/-- Model of `Path(s).name`: the final path component, `""` when there is none. -/
def pathName (s : String) : String := (posixParts s).getLastD ""

/-- Model of `PurePosixPath(a) / b` for a simple final component `b`. -/
def pathJoin (a b : String) : String :=
  if strEndsWith a "/" then a ++ b else a ++ "/" ++ b

/-- Equality on `Except` results is decidable (needed to evaluate the model
on concrete inputs). -/
instance {ε α : Type} [DecidableEq ε] [DecidableEq α] : DecidableEq (Except ε α) :=
  fun x y =>
    match x, y with
    | .ok a, .ok b =>
      if h : a = b then isTrue (by rw [h])
      else isFalse (by intro hc; injection hc; contradiction)
    | .error a, .error b =>
      if h : a = b then isTrue (by rw [h])
      else isFalse (by intro hc; injection hc; contradiction)
    | .ok _, .error _ => isFalse (by intro hc; injection hc)
    | .error _, .ok _ => isFalse (by intro hc; injection hc)

/-! ## The filesystem / process environment, as the source observes it -/

/-- Every observation the module makes of the machine it runs on.  Each field
models one operation of `pathlib` / `os.path` / file IO on the *current*
filesystem state; `distGlob` models `dist_path.glob("*.whl")` as observed
after `execute_command(["poetry", "build", "-vv"])` ran in the directory. -/
structure Fs where
  isDir : String → Bool
  isFile : String → Bool
  pathExists : String → Bool
  resolvePosix : String → String
  expandPosix : String → String
  readFile : String → String
  readB64 : String → String
  abspath : String → String
  distGlob : String → List String

/-- The six URL schemes recognised by `_classify_install_source`. -/
def urlSchemes : List String := ["http", "https", "git", "git+https", "git+ssh", "file"]

/-- Model of `_classify_install_source`: classify the installation source, returning
`(source_type, processed_source)`, or propagate the `urlparse` error. -/
def _classify_install_source (fs : Fs) (source : String) :
    Except Err (String × String) :=
  match urlparseScheme source with
  | .error e => .error e
  | .ok scheme =>
    if urlSchemes.contains scheme then .ok ("url", source)
    else
      let path := pathOf source
      if fs.isDir path then .ok ("directory", fs.resolvePosix path)
      else if fs.isFile path && strEndsWith source ".whl" then
        .ok ("wheel", fs.resolvePosix path)
      else .ok ("pypi", source)

/-- Insert into a sorted list of strings (ascending). -/
def insertSorted (s : String) : List String → List String
  | [] => [s]
  | x :: t => if s ≤ x then s :: x :: t else x :: insertSorted s t

/-- Model of `sorted(...)` on the glob result. -/
def sortStrings : List String → List String
  | [] => []
  | x :: t => insertSorted x (sortStrings t)

/-- Model of `_build_from_pyproject`: check for `pyproject.toml` (the `assert` raises
`AssertionError` when absent), run the build, and pick the last wheel of the
sorted `dist` glob; `InstallRuntimeError` when no wheel was produced. -/
def _build_from_pyproject (fs : Fs) (install_path : String) : Except Err String :=
  let pyproject_path := pathJoin install_path "pyproject.toml"
  if fs.pathExists pyproject_path = false then
    .error (.assertion ("pyproject.toml not found in " ++ install_path))
  else
    let dist_path := pathJoin install_path "dist"
    match (sortStrings (fs.distGlob dist_path)).getLast? with
    | some w => .ok (pathOf w)
    | none => .error (.installRuntime ("No .whl file found in " ++ dist_path
        ++ " after running command poetry build -vv"))

/-! ## Options, connection and the wire-level request -/

/-- Type of `opts.priority`: an `int` from the CLI, overwritten with the *string*
`"50"` at line 220 of the source. -/
inductive PriorityVal where
  | int (i : Int)
  | str (s : String)
deriving Repr, DecidableEq

/-- The two shapes `opts.agent_config` can take: an inline structured mapping
or the path of a config file (`None` is represented by `Option.none` around
this type). -/
inductive CfgIn where
  | dict (kvs : List (String × Yaml))
  | path (p : String)

/-- The `argparse.Namespace` fields the install flow reads (and, for
`priority`, writes). -/
structure Opts where
  install_path : String
  vip_identity : Option String
  tag : Option String
  agent_config : Option CfgIn
  force : Bool
  pre_release : Bool
  priority : PriorityVal
  start : Bool
  enable : Bool
  csv : Bool
  json : Bool

/-- Result of a remote call: an immediate value or an `AsyncResult` handle
(modelled from the spec: `AsyncResult` lives outside `src/`; it is an
ordinary object - truthy - whose `get()` blocks and returns the value). -/
inductive RpcRes where
  | value (s : String)
  | async (s : String)
deriving Repr, DecidableEq

/-- Python truthiness of the value returned by the primary call: an empty
identifier is falsy, an `AsyncResult` handle is an object and always truthy. -/
def rpcTruthy : RpcRes → Bool
  | .value s => s ≠ ""
  | .async _ => true

/-- The identifier after the `isinstance(_, AsyncResult)` resolution step. -/
def rpcResolve : RpcRes → String
  | .value s => s
  | .async s => s

/-- The already-established control connection: its address and the results
the platform returns for each method the module calls. -/
structure Conn where
  address : String
  install_agent_result : RpcRes
  agent_status : Option Int × Option String
  install_library_result : RpcRes

/-- The wire-level payload `AgentInstallOptions(...)` sent to the platform. -/
structure AgentInstallOptions where
  source : Option String
  identity : Option String
  data : Option String
  agent_config : Yaml
  force : Bool
  allow_prerelease : Bool
  editable : Bool

/-- Python truthiness of an optional string CLI value. -/
def optTruthy : Option String → Bool
  | none => false
  | some s => s ≠ ""

/-- Test `opts.priority == -1`. -/
def pvIsNeg1 : PriorityVal → Bool
  | .int i => i = -1
  | .str _ => false

/-- Python `str(...)` of the priority value. -/
def pvStr : PriorityVal → String
  | .int i => if i < 0 then String.mk ('-' :: emitNat (-i).toNat)
              else String.mk (emitNat i.toNat)
  | .str s => s

/-- A value of the ordered `output_dict`. -/
inductive OutVal where
  | s (v : String)
  | b (v : Bool)
  | i (v : Int)
  | pr (v : PriorityVal)
deriving Repr, DecidableEq

/-- Python `str(...)` of an `output_dict` value (used by the CSV reporter). -/
def OutVal.pyStr : OutVal → String
  | .s v => v
  | .b true => "True"
  | .b false => "False"
  | .i v => pvStr (.int v)
  | .pr v => pvStr v

/-- Association-list lookup preserving the dict semantics (keys are unique). -/
def olookup (k : String) : List (String × OutVal) → Option OutVal
  | [] => none
  | (k', v) :: t => if k' = k then some v else olookup k t

/-- Truthiness of `output_dict.get("started")`. -/
def startedTruthy (od : List (String × OutVal)) : Bool :=
  match olookup "started" od with
  | some (.b true) => true
  | _ => false

/-- Value of `output_dict["pid"]` rendered into the plain-mode line. -/
def pidStr (od : List (String × OutVal)) : String :=
  match olookup "pid" od with
  | some v => v.pyStr
  | none => ""

/-- One CSV line, comma-joined in insertion order. -/
def csvJoin (cells : List String) : String := String.intercalate "," cells

/-- Modelled from the spec: `jsonapi.dumps(output_dict, indent=4)` comes from
a helper outside `src/`; the spec only requires the result fields emitted as
a single structured object.  Only used when `opts.json` is set. -/
def jsonDumps (od : List (String × OutVal)) : String :=
  "\x7b" ++ csvJoin (od.map (fun p => "\"" ++ p.1 ++ "\": \"" ++ p.2.pyStr ++ "\"")) ++ "\x7d"

/-! ## `_install_and_initialize_agent`: request construction -/

/-- Lines 156-181 of the source: resolve `opts.agent_config` into the parsed
`config_dict`.  `None` becomes the empty mapping and, like any inline
mapping, is written with `yaml.safe_dump` to a temporary file and read back
with `yaml.safe_load`; a path must exist (`InstallRuntimeError` otherwise)
and its content is parsed; a parse failure is wrapped in
`InstallRuntimeError`. -/
def resolveConfigDict (fs : Fs) (cfg : Option CfgIn) : Except Err Yaml :=
  match cfg with
  | none =>
    match yload (ydump (.map [])) with
    | some v => .ok v
    | none => .error (.installRuntime "yaml safe_load failed")
  | some (.dict kvs) =>
    match yload (ydump (.map kvs)) with
    | some v => .ok v
    | none => .error (.installRuntime "yaml safe_load failed")
  | some (.path p) =>
    let config_file := fs.expandPosix (pathOf p)
    if fs.pathExists config_file = false then
      .error (.installRuntime ("Config file " ++ config_file ++ " does not exist!"))
    else
      match yload (fs.readFile config_file) with
      | some y => .ok y
      | none => .error (.installRuntime "yaml safe_load failed")

/-- Lines 183-192 of the source: the `agent` / `agent_data` pair.  A wheel
file is read and base64-encoded with its base name as source; otherwise a
truthy pypi string passes through; otherwise editable mode uses
`os.path.abspath(opts.install_path)`. -/
def agentSourceData (fs : Fs) (opts : Opts) (editable : Bool)
    (wheel pypi : Option String) : Option String × Option String :=
  match wheel with
  | some w => (some (pathName w), some (fs.readB64 w))
  | none =>
    match pypi with
    | some p =>
      if p ≠ "" then (some p, none)
      else if editable then (some (fs.abspath opts.install_path), none)
      else (none, none)
    | none =>
      if editable then (some (fs.abspath opts.install_path), none)
      else (none, none)

/-- Lines 147-149 of the source: the two `assert` statements guarding the
install target combination (truthiness of each target precomputed). -/
def checkInstallTargets (editable wheelT pypiT : Bool) : Except Err Unit :=
  if !(editable || wheelT || pypiT) then
    .error (.assertion
      "Either a source directory or a wheel file or pypi string must be specified.")
  else if editable && wheelT && pypiT then
    .error (.assertion
      "Only one of source directory, wheel_file or pypi_string can be specified.")
  else .ok ()

/-- Lines 143-200 of the source: everything up to the construction of the
`AgentInstallOptions` request (before any RPC call). -/
def requestPhase (fs : Fs) (opts : Opts) (wheel pypi : Option String) :
    Except Err AgentInstallOptions :=
  let editable := opts.install_path ≠ "" && fs.isDir (pathOf opts.install_path)
  match checkInstallTargets editable wheel.isSome (optTruthy pypi) with
  | .error e => .error e
  | .ok _ =>
    let wheelCheck : Except Err Unit :=
      match wheel with
      | some w =>
        if fs.pathExists w then .ok ()
        else .error (.installRuntime ("Wheel file " ++ w ++ " does not exist!"))
      | none => .ok ()
    match wheelCheck with
    | .error e => .error e
    | .ok _ =>
      match resolveConfigDict fs opts.agent_config with
      | .error e => .error e
      | .ok config_dict =>
        let sd := agentSourceData fs opts editable wheel pypi
        .ok { source := sd.1, identity := opts.vip_identity, data := sd.2,
              agent_config := config_dict, force := opts.force,
              allow_prerelease := opts.pre_release, editable := editable }

/-! ## `_install_and_initialize_agent`: dispatch and reporting -/

/-- Observable outcome of the dispatch / reporting part: the RPC methods
called in order, the lines written to stdout, the final state of `opts`
(line 220 mutates `opts.priority`), and the error, if any. -/
structure DispatchOut where
  calls : List String
  stdout : List String
  opts : Opts
  err : Option Err

/-- Entries appended to `output_dict` by the status check (lines 236-242). -/
def statusEntries : Option Int × Option String → List (String × OutVal)
  | (some pid, none) => [("started", .b true), ("pid", .i pid)]
  | _ => [("started", .b false)]

/-- Lines 202-265 of the source: the primary `install_agent` call, the falsy
check (*before* the `AsyncResult` resolution), the follow-up calls, and the
reporting.  `gevent.sleep` delays are not observable here; the
`try/except` around the start/status sequence swallows only exceptions from
the platform, which the `Conn` model represents by returned values. -/
def dispatchPhase (conn : Conn) (opts : Opts) : DispatchOut :=
  if rpcTruthy conn.install_agent_result = false then
    { calls := ["install_agent"], stdout := [], opts := opts,
      err := some (.valueError "Agent was not installed properly.") }
  else
    let agent_uuid := rpcResolve conn.install_agent_result
    let doEnable := opts.enable || !(pvIsNeg1 opts.priority)
    let opts' := if doEnable && pvIsNeg1 opts.priority
                 then { opts with priority := .str "50" } else opts
    let calls := ["install_agent"]
      ++ (if optTruthy opts.tag then ["tag_agent"] else [])
      ++ (if doEnable then ["prioritize_agent"] else [])
      ++ (if opts.start then ["start_agent", "agent_status"] else [])
    let od : List (String × OutVal) := [("agent_uuid", .s agent_uuid)]
      ++ (if optTruthy opts.tag then [("tag", .s (opts.tag.getD ""))] else [])
      ++ (if doEnable then [("enabling", .b true), ("priority", .pr opts'.priority)] else [])
      ++ (if opts.start then ("starting", .b true) :: statusEntries conn.agent_status else [])
    let out : List String :=
      if opts.json then [jsonDumps od ++ "\n"]
      else if startedTruthy od then
        ["Agent " ++ agent_uuid ++ " installed and started [" ++ pidStr od ++ "]\n"]
      else ["Agent " ++ agent_uuid ++ " installed\n"]
    let out := if opts.csv then
        out ++ [csvJoin (od.map (fun p => p.1)) ++ "\n" ++ csvJoin (od.map (fun p => p.2.pyStr)) ++ "\n"]
      else out
    { calls := calls, stdout := out, opts := opts', err := none }

/-- Observable outcome of one run of `_install_and_initialize_agent`. -/
structure FlowResult where
  calls : List String
  stdout : List String
  request : Option AgentInstallOptions
  opts : Opts
  err : Option Err

/-- Model of `_install_and_initialize_agent(opts, wheel_file, pypi_string)`. -/
def _install_and_initialize_agent (fs : Fs) (conn : Conn) (opts : Opts)
    (wheel pypi : Option String) : FlowResult :=
  match requestPhase fs opts wheel pypi with
  | .error e => { calls := [], stdout := [], request := none, opts := opts, err := some e }
  | .ok req =>
    let d := dispatchPhase conn opts
    { calls := d.calls, stdout := d.stdout, request := some req,
      opts := d.opts, err := d.err }

/-! ## `_install_lib` and the two `vctl` entry points -/

/-- Observable outcome of a library install. -/
structure LibResult where
  calls : List String
  stdout : List String
  err : Option Err
deriving Repr

/-- Model of `_install_lib(opts, wheel_file, pypi_string)` (lines 268-313). -/
def _install_lib (fs : Fs) (conn : Conn) (opts : Opts)
    (wheel pypi : Option String) : LibResult :=
  if !(wheel.isSome || optTruthy pypi) then
    { calls := [], stdout := [],
      err := some (.assertion "Either a wheel file or pypi string must be specified.") }
  else if wheel.isSome && optTruthy pypi then
    { calls := [], stdout := [],
      err := some (.assertion "Only one of wheel_file or pypi_string can be specified.") }
  else
    let wheelCheck : Except Err Unit :=
      match wheel with
      | some w =>
        if fs.pathExists w then .ok ()
        else .error (.installRuntime ("Wheel file " ++ w ++ " does not exist!"))
      | none => .ok ()
    match wheelCheck with
    | .error e => { calls := [], stdout := [], err := some e }
    | .ok _ =>
      if rpcTruthy conn.install_library_result = false then
        { calls := ["install_library"], stdout := [],
          err := some (.valueError "Library was not installed properly.") }
      else
        let lib_name := rpcResolve conn.install_library_result
        { calls := ["install_library"],
          stdout := ["Installed " ++ lib_name ++ " \n"], err := none }

/-- Model of `install_lib_vctl(opts)` (lines 317-360; the `callback` parameter is not
modelled - no claim concerns it). -/
def install_lib_vctl (fs : Fs) (conn : Conn) (opts : Opts) : LibResult :=
  match _classify_install_source fs opts.install_path with
  | .error e => { calls := [], stdout := [], err := some e }
  | .ok (source_type, processed_source) =>
    if source_type = "directory" then
      let pre := ["Building from " ++ processed_source ++ "\n"]
      match _build_from_pyproject fs processed_source with
      | .error e => { calls := [], stdout := pre, err := some e }
      | .ok wheel_path =>
        let pre := pre ++ ["Installing from wheel " ++ wheel_path ++ "\n"]
        let r := _install_lib fs conn opts (some wheel_path) none
        { r with stdout := pre ++ r.stdout }
    else if source_type = "wheel" then
      let pre := ["Installing from wheel " ++ processed_source ++ "\n"]
      let r := _install_lib fs conn opts (some (pathOf processed_source)) none
      { r with stdout := pre ++ r.stdout }
    else
      let kind := if source_type = "url" then "URL" else "pypi"
      let pre := ["Installing from " ++ kind ++ ": " ++ processed_source ++ "\n"]
      let r := _install_lib fs conn opts none (some processed_source)
      { r with stdout := pre ++ r.stdout }

/-- Model of `install_agent_vctl(opts)` (lines 363-412). -/
def install_agent_vctl (fs : Fs) (conn : Conn) (opts : Opts) : FlowResult :=
  match _classify_install_source fs opts.install_path with
  | .error e => { calls := [], stdout := [], request := none, opts := opts, err := some e }
  | .ok (source_type, processed_source) =>
    if source_type = "directory" then
      if strStartsWith conn.address "ipc:" then
        let pre := ["Installing editable agent package on local server: "
          ++ processed_source ++ "\n"]
        let r := _install_and_initialize_agent fs conn opts none none
        { r with stdout := pre ++ r.stdout }
      else
        let pre := ["Building agent from " ++ processed_source ++ "\n"]
        match _build_from_pyproject fs processed_source with
        | .error e =>
          { calls := [], stdout := pre, request := none, opts := opts, err := some e }
        | .ok wheel_path =>
          let pre := pre ++ ["Installing from wheel " ++ wheel_path ++ "\n"]
          let r := _install_and_initialize_agent fs conn opts (some wheel_path) none
          { r with stdout := pre ++ r.stdout }
    else if source_type = "wheel" then
      let pre := ["Installing from wheel " ++ processed_source ++ "\n"]
      let r := _install_and_initialize_agent fs conn opts (some (pathOf processed_source)) none
      { r with stdout := pre ++ r.stdout }
    else
      let kind := if source_type = "url" then "URL" else "pypi"
      let pre := ["Installing from " ++ kind ++ ": " ++ processed_source ++ "\n"]
      let r := _install_and_initialize_agent fs conn opts none (some processed_source)
      { r with stdout := pre ++ r.stdout }

/-- The remaining input does not continue a decimal run. -/
def HeadNotDigit : List Char → Prop
  | [] => True
  | c :: _ => c.isDigit = false

/-! ## Concrete scenarios used as witnesses and counterexamples -/

/-- A filesystem on which nothing exists. -/
def fs0 : Fs :=
  { isDir := fun _ => false, isFile := fun _ => false, pathExists := fun _ => false,
    resolvePosix := fun p => p, expandPosix := fun p => p, readFile := fun _ => "",
    readB64 := fun _ => "", abspath := fun p => p, distGlob := fun _ => [] }

/-- A remote connection whose platform answers every call successfully. -/
def conn0 : Conn :=
  { address := "tcp://127.0.0.1:22916", install_agent_result := .value "a1b2",
    agent_status := (none, none), install_library_result := .value "lib" }

/-- Baseline CLI options: the parser defaults of `vctl install`. -/
def opts0 : Opts :=
  { install_path := "", vip_identity := none, tag := none, agent_config := none,
    force := false, pre_release := false, priority := .int (-1), start := false,
    enable := false, csv := false, json := false }

/-- A project directory `/proj/agent` with a `pyproject.toml` whose build
produces one wheel in `dist`. -/
def fsProj : Fs :=
  { fs0 with
    isDir := fun p => p = "/proj/agent",
    pathExists := fun p =>
      p = "/proj/agent/pyproject.toml"
        || p = "/proj/agent/dist/agent-1.0-py3-none-any.whl",
    readB64 := fun _ => "UEsDBA==",
    distGlob := fun p =>
      if p = "/proj/agent/dist" then ["/proj/agent/dist/agent-1.0-py3-none-any.whl"]
      else [] }

/-- A filesystem holding exactly the wheel file `/w/a.whl`. -/
def fsWheel : Fs :=
  { fs0 with pathExists := fun p => p = "/w/a.whl", readB64 := fun _ => "QQ==" }

/-- A directory `/proj/lib` with no `pyproject.toml` in it. -/
def fsLibDir : Fs := { fs0 with isDir := fun p => p = "/proj/lib" }

/-- A filesystem where the current working directory exists. -/
def fsCwd : Fs :=
  { fs0 with isDir := fun p => p = ".", resolvePosix := fun _ => "/home/volttron" }

/-- Options carrying an inline configuration mapping. -/
def optsC7 : Opts := { opts0 with agent_config := some (.dict [("a", .str "b")]) }

/-- Connection answering `install_agent` with the identifier `"42"`. -/
def connC8a : Conn := { conn0 with install_agent_result := .value "42" }

/-- Like `connC8a`, with `agent_status` reporting pid 1234 and no error. -/
def connC8b : Conn := { connC8a with agent_status := (some 1234, none) }

/-- The request `_install_and_initialize_agent` builds for `optsC7` with the
wheel `/w/a.whl` on `fsWheel`. -/
def reqC7 : AgentInstallOptions :=
  { source := some "a.whl", identity := none, data := some "QQ==",
    agent_config := .map [("a", .str "b")], force := false,
    allow_prerelease := false, editable := false }

theorem sizeV_pos (v : Yaml) : 1 ≤ sizeV v := by
  cases v <;> simp [sizeV] <;> omega

theorem sizeL_pos (xs : List Yaml) : 1 ≤ sizeL xs := by
  cases xs <;> simp [sizeL] <;> omega

theorem sizeP_pos (ps : List (String × Yaml)) : 1 ≤ sizeP ps := by
  cases ps with
  | nil => simp [sizeP]
  | cons p t => cases p; simp [sizeP]; omega

theorem charToDigit_digitToChar (d : Nat) (h : d < 10) :
    charToDigit (digitToChar d) = d := by
  interval_cases d <;> decide

theorem digitToChar_isDigit (d : Nat) (h : d < 10) :
    (digitToChar d).isDigit = true := by
  interval_cases d <;> decide

theorem natToRevDigits_lt10 (fuel n : Nat) : ∀ d ∈ natToRevDigits fuel n, d < 10 := by
  induction fuel generalizing n with
  | zero => simp [natToRevDigits]
  | succ fuel ih =>
    intro d hd
    simp only [natToRevDigits] at hd
    by_cases h0 : n = 0
    · simp [h0] at hd
    · rw [if_neg h0] at hd
      rcases List.mem_cons.mp hd with h | h
      · omega
      · exact ih (n / 10) d h

theorem ofDigitsLE_natToRevDigits (fuel n : Nat) (h : n ≤ fuel) :
    ofDigitsLE (natToRevDigits fuel n) = n := by
  induction fuel generalizing n with
  | zero => simp [natToRevDigits, ofDigitsLE]; omega
  | succ fuel ih =>
    simp only [natToRevDigits]
    by_cases h0 : n = 0
    · simp [h0, ofDigitsLE]
    · rw [if_neg h0]
      simp only [ofDigitsLE]
      have hlt : n / 10 < n := Nat.div_lt_self (Nat.pos_of_ne_zero h0) (by omega)
      rw [ih (n / 10) (by omega)]
      omega

theorem natToRevDigits_ne_nil (fuel n : Nat) (hf : fuel ≠ 0) (hn : n ≠ 0) :
    natToRevDigits fuel n ≠ [] := by
  cases fuel with
  | zero => exact absurd rfl hf
  | succ fuel => simp [natToRevDigits, hn]

theorem emitNat_ne_nil (n : Nat) : emitNat n ≠ [] := by
  by_cases h0 : n = 0
  · simp [emitNat, h0]
  · simp only [emitNat, if_neg h0]
    intro hc
    have := natToRevDigits_ne_nil n n h0 h0
    simp at hc
    exact this hc

theorem emitNat_all_digits (n : Nat) : ∀ c ∈ emitNat n, c.isDigit = true := by
  intro c hc
  by_cases h0 : n = 0
  · simp [emitNat, h0] at hc; simp [hc]
  · simp only [emitNat, if_neg h0, List.mem_map, List.mem_reverse] at hc
    obtain ⟨d, hd, rfl⟩ := hc
    exact digitToChar_isDigit d (natToRevDigits_lt10 n n d hd)

theorem takeWhile_digits_append (l r : List Char)
    (hl : ∀ c ∈ l, c.isDigit = true) (hr : HeadNotDigit r) :
    (l ++ r).takeWhile Char.isDigit = l ∧ (l ++ r).dropWhile Char.isDigit = r := by
  induction l with
  | nil =>
    simp only [List.nil_append]
    cases r with
    | nil => simp
    | cons c t =>
      have : c.isDigit = false := hr
      simp [List.takeWhile_cons, List.dropWhile_cons, this]
  | cons c t ih =>
    have hc : c.isDigit = true := hl c (List.mem_cons_self c t)
    have iht := ih (fun x hx => hl x (List.mem_cons_of_mem c hx))
    simp [List.takeWhile_cons, List.dropWhile_cons, hc, iht.1, iht.2]

theorem parseNat_emitNat (n : Nat) (rest : List Char) (hr : HeadNotDigit rest) :
    parseNat (emitNat n ++ rest) = some (n, rest) := by
  have hall := emitNat_all_digits n
  obtain ⟨htake, hdrop⟩ := takeWhile_digits_append (emitNat n) rest hall hr
  have hval : ofDigitsLE (((emitNat n).map charToDigit).reverse) = n := by
    by_cases h0 : n = 0
    · subst h0
      have h1 : emitNat 0 = ['0'] := by simp [emitNat]
      rw [h1]; decide
    · simp only [emitNat, if_neg h0]
      have hmap : (((natToRevDigits n n).reverse.map digitToChar).map charToDigit)
          = (natToRevDigits n n).reverse := by
        rw [List.map_map]
        apply List.map_congr_left ?_ |>.trans (List.map_id _)
        intro d hd
        exact charToDigit_digitToChar d
          (natToRevDigits_lt10 n n d (List.mem_reverse.mp hd))
      rw [hmap, List.reverse_reverse, ofDigitsLE_natToRevDigits n n (le_refl n)]
  simp only [parseNat, htake, hdrop]
  rw [if_neg (emitNat_ne_nil n), hval]

theorem parseStrBody_quote (rest : List Char) :
    parseStrBody ('"' :: rest) = some ([], rest) := by
  rw [parseStrBody.eq_def]; simp

theorem parseStrBody_backslash (c2 : Char) (rest : List Char) :
    parseStrBody ('\\' :: c2 :: rest)
      = (parseStrBody rest).map (fun p => (c2 :: p.1, p.2)) := by
  rw [parseStrBody.eq_def]; simp

theorem parseStrBody_other (c : Char) (rest : List Char) (h1 : c ≠ '"') (h2 : c ≠ '\\') :
    parseStrBody (c :: rest) = (parseStrBody rest).map (fun p => (c :: p.1, p.2)) := by
  rw [parseStrBody.eq_def]; simp [h1, h2]

theorem parseStrBody_escape (l : List Char) (rest : List Char) :
    parseStrBody (escapeChars l ++ '"' :: rest) = some (l, rest) := by
  induction l with
  | nil => simp [escapeChars, parseStrBody_quote]
  | cons c t ih =>
    by_cases hc : c = '"' ∨ c = '\\'
    · have hesc : escapeChars (c :: t) = '\\' :: c :: escapeChars t := by
        rcases hc with h | h <;> simp [escapeChars, h]
      rw [hesc, List.cons_append, List.cons_append, parseStrBody_backslash, ih]
      rfl
    · push_neg at hc
      have hesc : escapeChars (c :: t) = c :: escapeChars t := by
        simp [escapeChars, hc.1, hc.2]
      rw [hesc, List.cons_append, parseStrBody_other c _ hc.1 hc.2, ih]
      rfl


theorem stringMk_data (s : String) : String.mk s.data = s := rfl

theorem emitNat_cons_digit (m : Nat) :
    ∃ c t, emitNat m = c :: t ∧ c.isDigit = true := by
  cases h : emitNat m with
  | nil => exact absurd h (emitNat_ne_nil m)
  | cons c t =>
    refine ⟨c, t, rfl, ?_⟩
    have := emitNat_all_digits m c
    rw [h] at this
    exact this (List.mem_cons_self c t)

theorem emitVal_head_ne_rbrack (v : Yaml) :
    ∃ c t, emitVal v = c :: t ∧ c ≠ ']' := by
  cases v with
  | null => exact ⟨'n', ['u', 'l', 'l'], by simp [emitVal], by decide⟩
  | bool b => cases b with
    | true => exact ⟨'t', ['r', 'u', 'e'], by simp [emitVal], by decide⟩
    | false => exact ⟨'f', ['a', 'l', 's', 'e'], by simp [emitVal], by decide⟩
  | int n =>
    by_cases hn : n < 0
    · exact ⟨'-', emitNat (-n).toNat, by simp [emitVal, emitInt, hn], by decide⟩
    · obtain ⟨c, t, hct, hdig⟩ := emitNat_cons_digit n.toNat
      refine ⟨c, t, by simp [emitVal, emitInt, hn, hct], ?_⟩
      intro hc
      rw [hc] at hdig
      exact absurd hdig (by decide)
  | str s => exact ⟨'"', escapeChars s.data ++ ['"'], by simp [emitVal], by decide⟩
  | list xs => cases xs with
    | nil => exact ⟨'[', [']'], by simp [emitVal], by decide⟩
    | cons x t => exact ⟨'[', emitVal x ++ emitItems t, by simp [emitVal], by decide⟩
  | map ps => cases ps with
    | nil => exact ⟨'\x7b', ['\x7d'], by simp [emitVal], by decide⟩
    | cons p t =>
      obtain ⟨k, v⟩ := p
      exact ⟨'\x7b', '"' :: (escapeChars k.data ++ ['"', ':'] ++ emitVal v ++ emitPairs t),
        by simp [emitVal], by decide⟩

theorem headNotDigit_emitItems (xs : List Yaml) (r : List Char) :
    HeadNotDigit (emitItems xs ++ r) := by
  cases xs with
  | nil => simp [emitItems, HeadNotDigit]
  | cons x t => simp [emitItems, HeadNotDigit]

theorem headNotDigit_emitPairs (ps : List (String × Yaml)) (r : List Char) :
    HeadNotDigit (emitPairs ps ++ r) := by
  cases ps with
  | nil => simp [emitPairs, HeadNotDigit]
  | cons p t =>
    obtain ⟨k, v⟩ := p
    simp [emitPairs, HeadNotDigit]

theorem parseVal_quote (f : Nat) (rest : List Char) :
    parseVal (f + 1) ('"' :: rest)
      = (parseStrBody rest).map (fun p => (.str (String.mk p.1), p.2)) := by
  rw [parseVal.eq_def]; simp

theorem parseVal_minus (f : Nat) (rest : List Char) :
    parseVal (f + 1) ('-' :: rest)
      = (parseNat rest).map (fun p => (.int (-(p.1 : Int)), p.2)) := by
  rw [parseVal.eq_def]; simp

theorem parseVal_digitHead (f : Nat) (c : Char) (rest : List Char)
    (h : c.isDigit = true) :
    parseVal (f + 1) (c :: rest)
      = (parseNat (c :: rest)).map (fun p => (.int (p.1 : Int), p.2)) := by
  have h1 : ¬(c = '"') := by rintro rfl; exact absurd h (by decide)
  have h2 : ¬(c = '-') := by rintro rfl; exact absurd h (by decide)
  rw [parseVal.eq_def]; simp [h1, h2, h]

theorem parseVal_emptyList (f : Nat) (t : List Char) :
    parseVal (f + 1) ('[' :: ']' :: t) = some (.list [], t) := by
  rw [parseVal.eq_def]; simp

theorem parseVal_lbrack (f : Nat) (c : Char) (t : List Char) (h : c ≠ ']') :
    parseVal (f + 1) ('[' :: c :: t)
      = (parseItems f (c :: t)).map (fun p => (.list p.1, p.2)) := by
  rw [parseVal.eq_def]
  simp only []
  have h2 : ¬(('[' : Char) = '"') := by decide
  have h3 : ¬(('[' : Char) = '-') := by decide
  have h4 : Char.isDigit '[' = false := by decide
  simp [h2, h3, h4, h]

theorem parseVal_emptyMap (f : Nat) (t : List Char) :
    parseVal (f + 1) ('\x7b' :: '\x7d' :: t) = some (.map [], t) := by
  rw [parseVal.eq_def]; simp

theorem parseVal_lbraceQuote (f : Nat) (t : List Char) :
    parseVal (f + 1) ('\x7b' :: '"' :: t)
      = (parsePairs f ('"' :: t)).map (fun p => (.map p.1, p.2)) := by
  rw [parseVal.eq_def]; simp

theorem parseVal_null (f : Nat) (t : List Char) :
    parseVal (f + 1) ('n' :: 'u' :: 'l' :: 'l' :: t) = some (.null, t) := by
  rw [parseVal.eq_def]; simp

theorem parseVal_true (f : Nat) (t : List Char) :
    parseVal (f + 1) ('t' :: 'r' :: 'u' :: 'e' :: t) = some (.bool true, t) := by
  rw [parseVal.eq_def]; simp

theorem parseVal_false (f : Nat) (t : List Char) :
    parseVal (f + 1) ('f' :: 'a' :: 'l' :: 's' :: 'e' :: t) = some (.bool false, t) := by
  rw [parseVal.eq_def]; simp

theorem parseItems_last (f : Nat) (cs : List Char) (v : Yaml) (r : List Char)
    (h : parseVal f cs = some (v, ']' :: r)) :
    parseItems (f + 1) cs = some ([v], r) := by
  rw [parseItems.eq_def]; simp [h]

theorem parseItems_cons (f : Nat) (cs : List Char) (v : Yaml) (r : List Char)
    (h : parseVal f cs = some (v, ',' :: r)) :
    parseItems (f + 1) cs = (parseItems f r).map (fun p => (v :: p.1, p.2)) := by
  rw [parseItems.eq_def]; simp [h]

theorem parsePairs_last (f : Nat) (cs' ks : List Char) (v : Yaml)
    (rest' r3 : List Char)
    (h1 : parseStrBody cs' = some (ks, ':' :: rest'))
    (h2 : parseVal f rest' = some (v, '\x7d' :: r3)) :
    parsePairs (f + 1) ('"' :: cs') = some ([(String.mk ks, v)], r3) := by
  rw [parsePairs.eq_def]; simp [h1, h2]

theorem parsePairs_cons (f : Nat) (cs' ks : List Char) (v : Yaml)
    (rest' r3 : List Char)
    (h1 : parseStrBody cs' = some (ks, ':' :: rest'))
    (h2 : parseVal f rest' = some (v, ',' :: r3)) :
    parsePairs (f + 1) ('"' :: cs')
      = (parsePairs f r3).map (fun p => ((String.mk ks, v) :: p.1, p.2)) := by
  rw [parsePairs.eq_def]; simp [h1, h2]

theorem parse_emit_round (fuel : Nat) :
    (∀ v rest, sizeV v ≤ fuel → HeadNotDigit rest →
      parseVal fuel (emitVal v ++ rest) = some (v, rest)) ∧
    (∀ x xs rest, 1 + sizeV x + sizeL xs ≤ fuel → HeadNotDigit rest →
      parseItems fuel (emitVal x ++ (emitItems xs ++ rest)) = some (x :: xs, rest)) ∧
    (∀ (k : String) (v : Yaml) ps rest, 1 + sizeV v + sizeP ps ≤ fuel → HeadNotDigit rest →
      parsePairs fuel
          ('"' :: (escapeChars k.data ++ '"' :: ':' :: (emitVal v ++ (emitPairs ps ++ rest))))
        = some ((k, v) :: ps, rest)) := by
  induction fuel with
  | zero =>
    refine ⟨fun v rest hs _ => absurd hs ?_, fun x xs rest hs _ => absurd hs ?_,
      fun k v ps rest hs _ => absurd hs ?_⟩
    · have := sizeV_pos v; omega
    · omega
    · omega
  | succ f ih =>
    obtain ⟨ihA, ihB, ihC⟩ := ih
    refine ⟨?_, ?_, ?_⟩
    · intro v rest hs hr
      cases v with
      | null =>
        have he : emitVal .null = ['n', 'u', 'l', 'l'] := by simp [emitVal]
        rw [he]
        simpa using parseVal_null f rest
      | bool b =>
        cases b with
        | true =>
          have he : emitVal (.bool true) = ['t', 'r', 'u', 'e'] := by simp [emitVal]
          rw [he]
          simpa using parseVal_true f rest
        | false =>
          have he : emitVal (.bool false) = ['f', 'a', 'l', 's', 'e'] := by simp [emitVal]
          rw [he]
          simpa using parseVal_false f rest
      | int n =>
        have he : emitVal (.int n) = emitInt n := by simp [emitVal]
        rw [he]
        by_cases hn : n < 0
        · rw [show emitInt n = '-' :: emitNat (-n).toNat by simp [emitInt, hn],
            List.cons_append, parseVal_minus,
            parseNat_emitNat (-n).toNat rest hr]
          have : (((-n).toNat : Int)) = -n := Int.toNat_of_nonneg (by omega)
          simp [this]
        · obtain ⟨c, t, hct, hdig⟩ := emitNat_cons_digit n.toNat
          rw [show emitInt n = emitNat n.toNat by simp [emitInt, hn], hct,
            List.cons_append, parseVal_digitHead f c _ hdig,
            show c :: (t ++ rest) = emitNat n.toNat ++ rest by rw [hct]; rfl,
            parseNat_emitNat n.toNat rest hr]
          have : ((n.toNat : Int)) = n := Int.toNat_of_nonneg (by omega)
          simp [this]
      | str s =>
        have he : emitVal (.str s) = '"' :: (escapeChars s.data ++ ['"']) := by
          simp [emitVal]
        rw [he, List.cons_append, List.append_assoc, List.singleton_append,
          parseVal_quote, parseStrBody_escape]
        simp [stringMk_data]
      | list xs =>
        cases xs with
        | nil =>
          have he : emitVal (.list []) = ['[', ']'] := by simp [emitVal]
          rw [he]
          simpa using parseVal_emptyList f rest
        | cons x t =>
          have he : emitVal (.list (x :: t)) = '[' :: (emitVal x ++ emitItems t) := by
            simp [emitVal]
          obtain ⟨c, ct, hct, hc⟩ := emitVal_head_ne_rbrack x
          have harg : emitVal (.list (x :: t)) ++ rest
              = '[' :: c :: (ct ++ (emitItems t ++ rest)) := by
            rw [he, hct]; simp
          rw [harg, parseVal_lbrack f c _ hc,
            show c :: (ct ++ (emitItems t ++ rest)) = emitVal x ++ (emitItems t ++ rest) by
              rw [hct]; rfl]
          have hsz : 1 + sizeV x + sizeL t ≤ f := by
            simp [sizeV, sizeL] at hs; omega
          rw [ihB x t rest hsz hr]
          rfl
      | map ps =>
        cases ps with
        | nil =>
          have he : emitVal (.map []) = ['\x7b', '\x7d'] := by simp [emitVal]
          rw [he]
          simpa using parseVal_emptyMap f rest
        | cons p t =>
          obtain ⟨k, v⟩ := p
          have he : emitVal (.map ((k, v) :: t))
              = '\x7b' :: '"' :: (escapeChars k.data ++ ['"', ':'] ++ emitVal v ++ emitPairs t) := by
            simp [emitVal]
          have harg : emitVal (.map ((k, v) :: t)) ++ rest
              = '\x7b' :: '"' :: (escapeChars k.data ++ '"' :: ':' :: (emitVal v ++ (emitPairs t ++ rest))) := by
            rw [he]; simp
          rw [harg, parseVal_lbraceQuote]
          have hsz : 1 + sizeV v + sizeP t ≤ f := by
            simp [sizeV, sizeP] at hs; omega
          rw [ihC k v t rest hsz hr]
          rfl
    · intro x xs rest hs hr
      have hszx : sizeV x ≤ f := by
        have := sizeL_pos xs; omega
      have hx := ihA x (emitItems xs ++ rest) hszx (headNotDigit_emitItems xs rest)
      cases xs with
      | nil =>
        have harg : emitItems ([] : List Yaml) ++ rest = ']' :: rest := by
          simp [emitItems]
        rw [harg] at hx ⊢
        exact parseItems_last f _ x rest hx
      | cons y ys =>
        have harg : emitItems (y :: ys) ++ rest
            = ',' :: (emitVal y ++ (emitItems ys ++ rest)) := by
          simp [emitItems]
        rw [harg] at hx ⊢
        rw [parseItems_cons f _ x _ hx]
        have hsz : 1 + sizeV y + sizeL ys ≤ f := by
          have := sizeV_pos x
          simp [sizeL] at hs; omega
        rw [ihB y ys rest hsz hr]
        rfl
    · intro k v ps rest hs hr
      have h1 : parseStrBody (escapeChars k.data ++ '"' :: ':' :: (emitVal v ++ (emitPairs ps ++ rest)))
          = some (k.data, ':' :: (emitVal v ++ (emitPairs ps ++ rest))) :=
        parseStrBody_escape k.data _
      have hszv : sizeV v ≤ f := by
        have := sizeP_pos ps; omega
      have hv := ihA v (emitPairs ps ++ rest) hszv (headNotDigit_emitPairs ps rest)
      cases ps with
      | nil =>
        have harg : emitPairs ([] : List (String × Yaml)) ++ rest = '\x7d' :: rest := by
          simp [emitPairs]
        rw [harg] at h1 hv ⊢
        rw [parsePairs_last f _ k.data v _ rest h1 hv, stringMk_data]
      | cons q qs =>
        obtain ⟨k2, v2⟩ := q
        have harg : emitPairs ((k2, v2) :: qs) ++ rest
            = ',' :: '"' :: (escapeChars k2.data ++ '"' :: ':' :: (emitVal v2 ++ (emitPairs qs ++ rest))) := by
          simp [emitPairs]
        rw [harg] at h1 hv ⊢
        rw [parsePairs_cons f _ k.data v _ _ h1 hv]
        have hsz : 1 + sizeV v2 + sizeP qs ≤ f := by
          have := sizeV_pos v
          simp [sizeP] at hs; omega
        rw [ihC k2 v2 qs rest hsz hr]
        simp [stringMk_data]

mutual

theorem sizeV_le_emit : ∀ (v : Yaml), sizeV v ≤ 2 * (emitVal v).length
  | .null => by simp [sizeV, emitVal]
  | .bool true => by simp [sizeV, emitVal]
  | .bool false => by simp [sizeV, emitVal]
  | .int n => by
    have h : 1 ≤ (emitInt n).length := by
      by_cases hn : n < 0
      · simp [emitInt, hn]
      · simp only [emitInt, if_neg hn]
        cases h : emitNat n.toNat with
        | nil => exact absurd h (emitNat_ne_nil n.toNat)
        | cons c t => simp
    simp only [sizeV, emitVal]
    omega
  | .str s => by
    simp only [sizeV, emitVal, List.length_cons, List.length_append]
    omega
  | .list [] => by simp [sizeV, sizeL, emitVal]
  | .list (x :: xs) => by
    have h1 := sizeV_le_emit x
    have h2 := sizeL_le_emit xs
    simp only [sizeV, sizeL, emitVal, List.length_cons, List.length_append]
    omega
  | .map [] => by simp [sizeV, sizeP, emitVal]
  | .map ((k, v) :: ps) => by
    have h1 := sizeV_le_emit v
    have h2 := sizeP_le_emit ps
    simp only [sizeV, sizeP, emitVal, List.length_cons, List.length_append]
    omega

theorem sizeL_le_emit : ∀ (xs : List Yaml), sizeL xs ≤ 2 * (emitItems xs).length
  | [] => by simp [sizeL, emitItems]
  | x :: xs => by
    have h1 := sizeV_le_emit x
    have h2 := sizeL_le_emit xs
    simp only [sizeL, emitItems, List.length_cons, List.length_append]
    omega

theorem sizeP_le_emit : ∀ (ps : List (String × Yaml)), sizeP ps ≤ 2 * (emitPairs ps).length
  | [] => by simp [sizeP, emitPairs]
  | (k, v) :: ps => by
    have h1 := sizeV_le_emit v
    have h2 := sizeP_le_emit ps
    simp only [sizeP, emitPairs, List.length_cons, List.length_append]
    omega

end

/-- Round-trip of the config serialisation: parsing back a dumped value
yields the value itself. -/
theorem yload_ydump (y : Yaml) : yload (ydump y) = some y := by
  have hb : sizeV y ≤ 2 * (emitVal y).length + 2 := by
    have := sizeV_le_emit y
    omega
  have h := (parse_emit_round (2 * (emitVal y).length + 2)).1 y [] hb trivial
  rw [List.append_nil] at h
  simp only [yload, ydump]
  rw [h]

/-! ## Claim theorems -/

/-- C5: for every input string whose parsed URI scheme is one of
http, https, git, git+https, git+ssh, file, the classifier returns the
`"url"` kind with the original string byte-identical (no path normalisation
applied), even when the string contains `://` - for any filesystem state. -/
theorem C5_url_source_verbatim (fs : Fs) (source sch : String)
    (hok : urlparseScheme source = .ok sch)
    (hmem : urlSchemes.contains sch = true) :
    _classify_install_source fs source = .ok ("url", source) := by
  unfold _classify_install_source
  rw [hok]
  dsimp only
  split
  next => rfl
  next h => exact absurd hmem h

/-- Witness for C5 at a concrete `git+ssh` URL containing `://`. -/
theorem C5_url_source_verbatim_witness :
    urlparseScheme "git+ssh://git@github.com/o/r.git" = .ok "git+ssh"
      ∧ _classify_install_source fs0 "git+ssh://git@github.com/o/r.git"
          = .ok ("url", "git+ssh://git@github.com/o/r.git") :=
  ⟨by decide,
   C5_url_source_verbatim fs0 "git+ssh://git@github.com/o/r.git" "git+ssh"
     (by decide) (by decide)⟩

/-- C9 counterexample: classification is *not* error-free for every input -
the string `"//["` has no recognized URI scheme and names no existing path,
yet `urlparse` raises `ValueError("Invalid IPv6 URL")`, which propagates out
of `_classify_install_source` instead of a RegistryRef result. -/
theorem C9_counterexample :
    _classify_install_source fs0 "//["
      = .error (.valueError "Invalid IPv6 URL") := by decide

/-- C9 (amended): for every input string on which URL parsing succeeds whose
scheme is not recognized and which names neither an existing directory nor
an existing wheel file, the classifier returns the `"pypi"` (RegistryRef)
kind with the original string verbatim; and the only error classification
itself can raise is the `ValueError` propagated from `urlparse` for an
authority with mismatched square brackets. -/
theorem C9_registry_fallthrough :
    (∀ (fs : Fs) (source sch : String), urlparseScheme source = .ok sch →
        urlSchemes.contains sch = false →
        fs.isDir (pathOf source) = false →
        (fs.isFile (pathOf source) && strEndsWith source ".whl") = false →
        _classify_install_source fs source = .ok ("pypi", source))
    ∧ (∀ (source : String) (e : Err), urlparseScheme source = .error e →
        e = .valueError "Invalid IPv6 URL") := by
  constructor
  · intro fs source sch hok hmem hdir hwhl
    unfold _classify_install_source
    rw [hok]
    dsimp only
    split
    next h => rw [hmem] at h; exact absurd h (by simp)
    next =>
      split
      next h => rw [hdir] at h; exact absurd h (by simp)
      next =>
        split
        next h => rw [hwhl] at h; exact absurd h (by simp)
        next => rfl
  · intro source e h
    unfold urlparseScheme at h
    dsimp only at h
    split at h
    · split at h
      · injection h with h'
        exact h'.symm
      · exact Except.noConfusion h
    · exact Except.noConfusion h

/-- Witness for C9's amended statement: a registry reference with a version
qualifier falls through to RegistryRef verbatim. -/
theorem C9_registry_fallthrough_witness :
    _classify_install_source fs0 "volttron-listener>=1.0"
      = .ok ("pypi", "volttron-listener>=1.0") :=
  C9_registry_fallthrough.1 fs0 "volttron-listener>=1.0" ""
    (by decide) (by decide) (by decide) (by decide)

/-- C10: classifying the empty string returns the `"directory"` kind with the
absolute resolved current working directory (the empty path is `Path('')`,
i.e. `'.'`), not RegistryRef with the empty string - whenever the current
working directory exists. -/
theorem C10_empty_source_is_cwd_directory (fs : Fs) (hdir : fs.isDir "." = true) :
    _classify_install_source fs "" = .ok ("directory", fs.resolvePosix ".") := by
  have hok : urlparseScheme "" = .ok "" := by decide
  unfold _classify_install_source
  rw [hok]
  dsimp only
  rw [show pathOf "" = "." from by decide, hdir]
  simp [urlSchemes]

/-- Witness for C10 on a filesystem whose working directory resolves to
`/home/volttron`. -/
theorem C10_empty_source_is_cwd_directory_witness :
    _classify_install_source fsCwd "" = .ok ("directory", "/home/volttron") :=
  C10_empty_source_is_cwd_directory fsCwd (by decide)

/-- C3: the two `assert` statements at lines 147-149 accept every
combination of exactly two install targets (the second assertion only
rejects all three together), contradicting both the spec's "exactly one"
rule and the assertion's own message "Only one of source directory,
wheel_file or pypi_string can be specified". -/
theorem C3_two_targets_accepted :
    checkInstallTargets true true false = .ok ()
      ∧ checkInstallTargets true false true = .ok ()
      ∧ checkInstallTargets false true true = .ok ()
      ∧ checkInstallTargets false false false
          = .error (.assertion
            "Either a source directory or a wheel file or pypi string must be specified.")
      ∧ checkInstallTargets true true true
          = .error (.assertion
            "Only one of source directory, wheel_file or pypi_string can be specified.") := by
  decide

/-- C6: running `install-lib` on a source that classifies as a directory
lacking `pyproject.toml` fails with the build-descriptor assertion
(BuildConfigError) before any RPC call is issued over the connection. -/
theorem C6_missing_pyproject_no_rpc (fs : Fs) (conn : Conn) (opts : Opts)
    (sch : String)
    (hok : urlparseScheme opts.install_path = .ok sch)
    (hmem : urlSchemes.contains sch = false)
    (hdir : fs.isDir (pathOf opts.install_path) = true)
    (hnopy : fs.pathExists
        (pathJoin (fs.resolvePosix (pathOf opts.install_path)) "pyproject.toml") = false) :
    (install_lib_vctl fs conn opts).err
        = some (.assertion ("pyproject.toml not found in "
            ++ fs.resolvePosix (pathOf opts.install_path)))
      ∧ (install_lib_vctl fs conn opts).calls = [] := by
  have hcls : _classify_install_source fs opts.install_path
      = .ok ("directory", fs.resolvePosix (pathOf opts.install_path)) := by
    unfold _classify_install_source
    rw [hok]
    dsimp only
    rw [hmem, hdir]
    simp
  have hbuild : _build_from_pyproject fs (fs.resolvePosix (pathOf opts.install_path))
      = .error (.assertion ("pyproject.toml not found in "
          ++ fs.resolvePosix (pathOf opts.install_path))) := by
    unfold _build_from_pyproject
    dsimp only
    rw [hnopy]
    simp
  unfold install_lib_vctl
  rw [hcls]
  dsimp only
  rw [if_pos rfl, hbuild]
  exact ⟨rfl, rfl⟩

/-- Witness for C6: a project directory without a build descriptor. -/
theorem C6_missing_pyproject_no_rpc_witness :
    (install_lib_vctl fsLibDir conn0 { opts0 with install_path := "/proj/lib" }).err
        = some (.assertion "pyproject.toml not found in /proj/lib")
      ∧ (install_lib_vctl fsLibDir conn0 { opts0 with install_path := "/proj/lib" }).calls
          = [] := by
  have h := C6_missing_pyproject_no_rpc fsLibDir conn0
    { opts0 with install_path := "/proj/lib" } ""
    (by decide) (by decide) (by decide) (by decide)
  simpa using h

/-- C1: the invariant "editable flag and binary payload are never both set"
fails on the code: installing from a local source directory over a remote
(non-IPC) connection builds a wheel and sends its base64 payload, but
`editable` is still computed from `opts.install_path` being a directory, so
the constructed request carries `editable=True` *and* a binary payload. -/
theorem C1_editable_and_payload_both_set :
    ((install_agent_vctl fsProj conn0
        { opts0 with install_path := "/proj/agent" }).request.map
      (fun r => (r.editable, r.data, r.source)))
      = some (true, some "UEsDBA==", some "agent-1.0-py3-none-any.whl") := by
  decide

/-- C2: when the primary `install_agent` call returns a deferred handle that
resolves to an empty identifier, the code does *not* fail: the falsy check
at line 204 runs before the `AsyncResult` resolution at lines 207-208, an
`AsyncResult` object is always truthy, and the flow proceeds to call
`tag_agent` with the empty identifier (and reports success). -/
theorem C2_deferred_empty_identifier_proceeds :
    (_install_and_initialize_agent fsWheel
        { conn0 with install_agent_result := .async "" }
        { opts0 with tag := some "mytag" } (some "/w/a.whl") none).err = none
      ∧ (_install_and_initialize_agent fsWheel
          { conn0 with install_agent_result := .async "" }
          { opts0 with tag := some "mytag" } (some "/w/a.whl") none).calls
          = ["install_agent", "tag_agent"]
      ∧ (_install_and_initialize_agent fsWheel
          { conn0 with install_agent_result := .async "" }
          { opts0 with tag := some "mytag" } (some "/w/a.whl") none).stdout
          = ["Agent  installed\n"] := by
  decide

theorem pvIsNeg1_iff (p : PriorityVal) : pvIsNeg1 p = true ↔ p = .int (-1) := by
  cases p with
  | int i => simp [pvIsNeg1]
  | str s => simp [pvIsNeg1]

theorem dispatchPhase_opts_eq (conn : Conn) (opts : Opts) :
    (dispatchPhase conn opts).opts =
      if (dispatchPhase conn opts).err = none
          ∧ opts.enable = true ∧ opts.priority = .int (-1)
      then { opts with priority := .str "50" } else opts := by
  unfold dispatchPhase
  by_cases h : rpcTruthy conn.install_agent_result = false
  · simp [h]
  · rw [if_neg h]
    dsimp only
    by_cases he : opts.enable = true
    · by_cases hp : pvIsNeg1 opts.priority = true
      · have hp' : opts.priority = .int (-1) := (pvIsNeg1_iff _).mp hp
        simp [he, hp, hp', pvIsNeg1]
      · have hp' : ¬(opts.priority = .int (-1)) := fun hh =>
          hp ((pvIsNeg1_iff _).mpr hh)
        simp [he, hp, hp']
    · by_cases hp : pvIsNeg1 opts.priority = true
      · have heb : opts.enable = false := by
          cases hee : opts.enable
          · rfl
          · exact absurd hee he
        simp [heb, hp]
      · have heb : opts.enable = false := by
          cases hee : opts.enable
          · rfl
          · exact absurd hee he
        have hpb : pvIsNeg1 opts.priority = false := by
          cases hpp : pvIsNeg1 opts.priority
          · rfl
          · exact absurd hpp hp
        simp [heb, hpb]

/-- C4 counterexample: with `--enable` and the default priority, the flow
overwrites `opts.priority` with the string `"50"` - the user-supplied
options are mutated after construction. -/
theorem C4_counterexample :
    (_install_and_initialize_agent fsWheel conn0 { opts0 with enable := true }
        (some "/w/a.whl") none).opts.priority = .str "50"
      ∧ ({ opts0 with enable := true } : Opts).priority = .int (-1) := by
  decide

/-- C4 (amended): the install flow never mutates the user-supplied options
*except* for one field in one case: when the run reaches the dispatch step
without error and enabling is requested while `opts.priority` is the default
`-1`, `opts.priority` is overwritten with the string `"50"` (line 220);
every other field, and every other execution, leaves `opts` unchanged. -/
theorem C4_priority_only_mutation (fs : Fs) (conn : Conn) (opts : Opts)
    (wheel pypi : Option String) :
    (_install_and_initialize_agent fs conn opts wheel pypi).opts =
      if (_install_and_initialize_agent fs conn opts wheel pypi).err = none
          ∧ opts.enable = true ∧ opts.priority = .int (-1)
      then { opts with priority := .str "50" } else opts := by
  unfold _install_and_initialize_agent
  cases hreq : requestPhase fs opts wheel pypi with
  | error e => simp
  | ok req =>
    dsimp only
    exact dispatchPhase_opts_eq conn opts

theorem requestPhase_config (fs : Fs) (opts : Opts) (wheel pypi : Option String)
    (req : AgentInstallOptions) (h : requestPhase fs opts wheel pypi = .ok req) :
    ∃ cd, resolveConfigDict fs opts.agent_config = .ok cd ∧ req.agent_config = cd := by
  unfold requestPhase at h
  dsimp only at h
  split at h
  next => exact Except.noConfusion h
  next =>
    split at h
    next => exact Except.noConfusion h
    next =>
      split at h
      next => exact Except.noConfusion h
      next cd heq =>
        refine ⟨cd, heq, ?_⟩
        injection h with h'
        rw [← h']

/-- C7: an inline (structured mapping) agent configuration round-trips
through the config-file serialisation unchanged, and the round-tripped
mapping is exactly what the constructed install request carries. -/
theorem C7_config_roundtrip (kvs : List (String × Yaml)) (fs : Fs) (conn : Conn)
    (opts : Opts) (wheel pypi : Option String) (r : AgentInstallOptions)
    (hcfg : opts.agent_config = some (.dict kvs))
    (hreq : (_install_and_initialize_agent fs conn opts wheel pypi).request = some r) :
    yload (ydump (.map kvs)) = some (.map kvs) ∧ r.agent_config = .map kvs := by
  refine ⟨yload_ydump (.map kvs), ?_⟩
  unfold _install_and_initialize_agent at hreq
  cases hrp : requestPhase fs opts wheel pypi with
  | error e =>
    rw [hrp] at hreq
    exact Option.noConfusion hreq
  | ok req =>
    rw [hrp] at hreq
    dsimp only at hreq
    injection hreq with hr
    obtain ⟨cd, hres', hcd⟩ := requestPhase_config fs opts wheel pypi req hrp
    have hres : resolveConfigDict fs opts.agent_config = .ok (.map kvs) := by
      rw [hcfg]
      unfold resolveConfigDict
      dsimp only
      rw [yload_ydump]
    rw [hres] at hres'
    injection hres' with hcd2
    rw [← hr, hcd]
    exact hcd2.symm

/-- Witness for C7: the mapping `a: b` round-trips and is the request's
configuration. -/
theorem C7_config_roundtrip_witness :
    yload (ydump (.map [("a", .str "b")])) = some (.map [("a", .str "b")])
      ∧ reqC7.agent_config = .map [("a", .str "b")] :=
  C7_config_roundtrip [("a", .str "b")] fsWheel conn0 optsC7 (some "/w/a.whl") none
    reqC7 rfl (by rfl)

theorem requestPhase_wheel_isOk (fs : Fs) (opts : Opts) (w : String)
    (hw : fs.pathExists w = true) (hcfg : opts.agent_config = none) :
    ∃ req, requestPhase fs opts (some w) none = .ok req := by
  have hres : resolveConfigDict fs opts.agent_config = .ok (.map []) := by
    rw [hcfg]
    unfold resolveConfigDict
    dsimp only
    rw [yload_ydump]
  have hchk : checkInstallTargets
      (opts.install_path ≠ "" && fs.isDir (pathOf opts.install_path))
      (some w).isSome (optTruthy none) = .ok () := by
    unfold checkInstallTargets optTruthy
    simp
  unfold requestPhase
  dsimp only
  rw [hchk]
  dsimp only
  rw [if_pos hw]
  dsimp only
  rw [hres]
  exact ⟨_, rfl⟩

theorem dispatch_stdout_plain (conn : Conn) (opts : Opts)
    (ht : opts.tag = none) (he : opts.enable = false)
    (hp : opts.priority = .int (-1)) (hs : opts.start = false)
    (hj : opts.json = false) (hc : opts.csv = false)
    (hr : conn.install_agent_result = .value "42") :
    (dispatchPhase conn opts).stdout = ["Agent 42 installed\n"] := by
  unfold dispatchPhase
  rw [hr]
  simp [rpcTruthy, rpcResolve, ht, he, hp, hs, hj, hc, pvIsNeg1, optTruthy,
    startedTruthy, olookup]

theorem dispatch_stdout_started (conn : Conn) (opts : Opts)
    (ht : opts.tag = none) (he : opts.enable = false)
    (hp : opts.priority = .int (-1)) (hs : opts.start = true)
    (hj : opts.json = false) (hc : opts.csv = false)
    (hr : conn.install_agent_result = .value "42")
    (hst : conn.agent_status = (some 1234, none)) :
    (dispatchPhase conn opts).stdout
      = ["Agent 42 installed and started [1234]\n"] := by
  unfold dispatchPhase
  rw [hr, hst]
  simp [rpcTruthy, rpcResolve, ht, he, hp, hs, hj, hc, pvIsNeg1, optTruthy,
    startedTruthy, olookup, statusEntries, pidStr, OutVal.pyStr, pvStr]
  decide

/-- C8: in plain (default) output mode, a successful install returning the
identifier `"42"` with no tag / enable / start options writes exactly the
line `Agent 42 installed`; and with `--start` requested and `agent_status`
returning `(1234, None)`, exactly `Agent 42 installed and started [1234]`. -/
theorem C8_plain_mode_lines :
    (∀ (fs : Fs) (conn : Conn) (opts : Opts) (w : String),
      opts.agent_config = none → opts.tag = none → opts.enable = false →
      opts.priority = .int (-1) → opts.start = false → opts.json = false →
      opts.csv = false → fs.pathExists w = true →
      conn.install_agent_result = .value "42" →
      (_install_and_initialize_agent fs conn opts (some w) none).stdout
        = ["Agent 42 installed\n"])
    ∧ (∀ (fs : Fs) (conn : Conn) (opts : Opts) (w : String),
      opts.agent_config = none → opts.tag = none → opts.enable = false →
      opts.priority = .int (-1) → opts.start = true → opts.json = false →
      opts.csv = false → fs.pathExists w = true →
      conn.install_agent_result = .value "42" →
      conn.agent_status = (some 1234, none) →
      (_install_and_initialize_agent fs conn opts (some w) none).stdout
        = ["Agent 42 installed and started [1234]\n"]) := by
  constructor
  · intro fs conn opts w hcfg ht he hp hs hj hc hw hr
    obtain ⟨req, hreq⟩ := requestPhase_wheel_isOk fs opts w hw hcfg
    unfold _install_and_initialize_agent
    rw [hreq]
    dsimp only
    exact dispatch_stdout_plain conn opts ht he hp hs hj hc hr
  · intro fs conn opts w hcfg ht he hp hs hj hc hw hr hst
    obtain ⟨req, hreq⟩ := requestPhase_wheel_isOk fs opts w hw hcfg
    unfold _install_and_initialize_agent
    rw [hreq]
    dsimp only
    exact dispatch_stdout_started conn opts ht he hp hs hj hc hr hst

/-- Witness for C8: both scenarios on a concrete filesystem / connection. -/
theorem C8_plain_mode_lines_witness :
    (_install_and_initialize_agent fsWheel connC8a opts0
        (some "/w/a.whl") none).stdout = ["Agent 42 installed\n"]
      ∧ (_install_and_initialize_agent fsWheel connC8b
          { opts0 with start := true } (some "/w/a.whl") none).stdout
          = ["Agent 42 installed and started [1234]\n"] :=
  ⟨C8_plain_mode_lines.1 fsWheel connC8a opts0 "/w/a.whl"
      rfl rfl rfl rfl rfl rfl rfl (by decide) rfl,
   C8_plain_mode_lines.2 fsWheel connC8b
      { opts0 with start := true } "/w/a.whl"
      rfl rfl rfl rfl rfl rfl rfl (by decide) rfl rfl⟩

end InstallParser
